import Mathlib

/-!
# Verification of the CV-analysis matching and ranking engine

Shallow embedding of `app/services/matcher/semantic_matcher.py`
(class `SemanticMatcher`): the domain-compatibility gate, the four
sub-score calculators, the weighted aggregator `match`, and the ranker
`rank_candidates`.  Scores are modelled as exact rationals; Python
dictionaries become structures, with a field that the code reads through
`dict.get` with two *different* defaults modelled as an `Option`.
The embedding collaborator (`sklearn` cosine similarity, the sentence
embedder) is opaque to the matcher and is passed in as a function
parameter; a per-resume embedding failure is modelled as `Option.none`.
-/

namespace CVMatch

/-! ## Python string primitives -/

/-- Models Python `s.startswith(pre)`: character-wise prefix test. -/
def pyStartsWith (s pre : String) : Bool :=
  pre.data.isPrefixOf s.data

/-- Models Python `s.lower()`. -/
def pyLower (s : String) : String :=
  String.mk (s.data.map Char.toLower)

/-- Helper for `pyContains`: does `needle` occur starting at some suffix? -/
def pyContainsAux (needle : List Char) : List Char → Bool
  | [] => needle.isPrefixOf []
  | c :: rest => needle.isPrefixOf (c :: rest) || pyContainsAux needle rest

/-- Models the Python substring test `needle in hay`. -/
def pyContains (hay needle : String) : Bool :=
  pyContainsAux needle.data hay.data

/-- Models Python `sep.join(xs)`. -/
def pyJoin (sep : String) : List String → String
  | [] => ""
  | [x] => x
  | x :: rest => x ++ sep ++ pyJoin sep rest

/-! ## Data model

Structured records, as produced by the extractor and consumed by the
matcher.  `years_of_experience` and `min_experience` are non-negative
integers (the extractor derives them from a digit regex, defaulting to 0);
absent list fields default to `[]` exactly as `dict.get(..., [])` does.
The `domain` key can genuinely be absent from a record dictionary, and
the code reads it with two distinct defaults (`"general"` in `match`,
`""` in `_check_experience` and `_check_education`), so it is modelled
as an `Option String`. -/

/-- An embedding: opaque fixed-length numeric vector. -/
abbrev Emb := List ℚ

/-- Structured resume record. -/
structure ResumeData where
  domain : Option String
  skills : List String
  certifications : List String
  education : List String
  years_of_experience : ℕ
  content : String
deriving DecidableEq

/-- Structured job record. -/
structure JobData where
  domain : Option String
  required_skills : List String
  strict_requirements : Bool
  min_experience : ℕ
deriving DecidableEq

/-- The weight configuration held in `self.weights`. -/
structure Weights where
  domain : ℚ
  skills : ℚ
  experience : ℚ
  education : ℚ
deriving DecidableEq

/-- The default weight dictionary from `SemanticMatcher.__init__`. -/
def defaultWeights : Weights :=
  { domain := 6/10, skills := 25/100, experience := 1/10, education := 5/100 }

/-- The `details` mapping of a match result. -/
structure MatchDetails where
  base_score : ℚ
  domain_match : ℚ
  skills_match : ℚ
  education_match : ℚ
  experience_match : ℚ
deriving DecidableEq

/-- The mapping returned by `SemanticMatcher.match`. -/
structure MatchResult where
  score : ℚ
  details : MatchDetails
deriving DecidableEq

/-! ## Domain compatibility gate -/

/-- The static incompatibility table `self.incompatible_domains`,
in dictionary insertion order. -/
def incompatible_domains : List (String × List String) :=
  [("accounting", ["ai_ml", "engineering"]),
   ("ai_ml", ["accounting"]),
   ("engineering", ["accounting"]),
   ("general", [])]

/-- The `for domain, incompatible in self.incompatible_domains.items()`
loop body of `_check_domain_compatibility`. -/
def compatLoop (resume_domain jd_domain : String) :
    List (String × List String) → Bool
  | [] => false
  | (d, incompatible) :: rest =>
    if pyStartsWith jd_domain d then
      !(incompatible.any fun x => pyStartsWith resume_domain x)
    else if pyStartsWith resume_domain d then
      !(incompatible.any fun x => pyStartsWith jd_domain x)
    else compatLoop resume_domain jd_domain rest

/-- `SemanticMatcher._check_domain_compatibility`. -/
def check_domain_compatibility (resume_domain jd_domain : String) : Bool :=
  if resume_domain = jd_domain then true
  else compatLoop resume_domain jd_domain incompatible_domains

/-- The gate as the spec describes it (§4.1): exact match, else look the
family of the job domain up in the table by prefix; on a hit, compatible iff
the resume domain starts with no excluded family; if the job domain hits
no entry, fall back to the resume domain symmetrically; if neither hits,
fail closed. -/
def specDomainCompatible (resume_domain jd_domain : String) : Bool :=
  if resume_domain = jd_domain then true
  else
    match incompatible_domains.find? (fun p => pyStartsWith jd_domain p.1) with
    | some (_, incompatible) =>
        !(incompatible.any fun x => pyStartsWith resume_domain x)
    | none =>
      match incompatible_domains.find? (fun p => pyStartsWith resume_domain p.1) with
      | some (_, incompatible) =>
          !(incompatible.any fun x => pyStartsWith jd_domain x)
      | none => false

/-! ## Sub-score calculators -/

/-- The lower-cased skill set `{s.lower() for s in skills}`. -/
def lowerSet (skills : List String) : Finset String :=
  (skills.map pyLower).toFinset

/-- `SemanticMatcher._calculate_skills_match`. -/
def calculate_skills_match (resume_skills jd_skills : List String) : ℚ :=
  if jd_skills = [] then 0
  else
    let resume_set := lowerSet resume_skills
    let jd_set := lowerSet jd_skills
    let intersection := (resume_set ∩ jd_set).card
    let union := (resume_set ∪ jd_set).card
    if 0 < union then (intersection : ℚ) / (union : ℚ) else 0

/-- The fixed certification set `ca, acca, cpa` from
`_check_education`. -/
def required_certs : List String := ["ca", "acca", "cpa"]

/-- `SemanticMatcher._check_education`. -/
def check_education (resume_data : ResumeData) (jd_data : JobData) : ℚ :=
  if !jd_data.strict_requirements then 1
  else if jd_data.domain.getD "" = "accounting" then
    let resume_certs := resume_data.certifications.map pyLower
    let resume_edu := pyLower (pyJoin " " resume_data.education)
    if resume_certs.any fun c => required_certs.contains c then 1
    else if required_certs.any fun term => pyContains resume_edu term then 1
    else 0
  else 1

/-- `SemanticMatcher._check_experience`.  Note the `""` default for a
missing domain key, unlike the `"general"` default used in `match`. -/
def check_experience (resume_data : ResumeData) (jd_data : JobData) : ℚ :=
  if !check_domain_compatibility (resume_data.domain.getD "")
      (jd_data.domain.getD "") then 0
  else
    let resume_exp := resume_data.years_of_experience
    let jd_min_exp := jd_data.min_experience
    if jd_min_exp = 0 then 1
    else if resume_exp ≥ jd_min_exp then 1
    else 1/2 * ((resume_exp : ℚ) / (jd_min_exp : ℚ))

/-! ## The matcher -/

/-- A `SemanticMatcher` instance: its weight configuration plus the
opaque embedding-similarity collaborator
(`sklearn.metrics.pairwise.cosine_similarity`). -/
structure SemanticMatcher where
  weights : Weights
  cosine_similarity : Emb → Emb → ℚ

/-- `SemanticMatcher.match` (named `matchPair` since `match` is reserved
in Lean).  The happy path of the method: the short-circuit on an
incompatible domain pair, else the weighted aggregation, clamped. -/
def SemanticMatcher.matchPair (m : SemanticMatcher)
    (resume_embedding jd_embedding : Emb)
    (resume_data : ResumeData) (jd_data : JobData) : MatchResult :=
  let base_score := m.cosine_similarity resume_embedding jd_embedding
  let resume_domain := resume_data.domain.getD "general"
  let jd_domain := jd_data.domain.getD "general"
  let domain_match := check_domain_compatibility resume_domain jd_domain
  if !domain_match then
    { score := 0,
      details := { base_score, domain_match := 0, skills_match := 0,
                   education_match := 0, experience_match := 0 } }
  else
    let skills_match :=
      calculate_skills_match resume_data.skills jd_data.required_skills
    let education_match := check_education resume_data jd_data
    let experience_match := check_experience resume_data jd_data
    let weighted_score :=
      (if domain_match then (1 : ℚ) else 0) * m.weights.domain +
      skills_match * m.weights.skills +
      education_match * m.weights.education +
      experience_match * m.weights.experience
    { score := min 1 (max 0 weighted_score),
      details := { base_score,
                   domain_match := if domain_match then 1 else 0,
                   skills_match, education_match, experience_match } }

/-! ## The ranker -/

/-- One `(score, resume, details)` tuple of `rank_candidates`. -/
structure RankedEntry where
  score : ℚ
  resume : ResumeData
  details : MatchDetails
deriving DecidableEq

/-- The accumulation loop of `rank_candidates`: per resume, embed its
content and run `match`; a raising resume (the embedder returning `none`)
is caught and skipped via `continue`. -/
def rankedPass (m : SemanticMatcher) (resumes : List ResumeData)
    (jd_embedding : Emb) (jd_data : JobData)
    (embedder : String → Option Emb) : List RankedEntry :=
  resumes.filterMap fun resume =>
    (embedder resume.content).map fun emb =>
      let r := m.matchPair emb jd_embedding resume jd_data
      { score := r.score, resume := resume, details := r.details }

/-- `SemanticMatcher.rank_candidates`:
`sorted(ranked, key=lambda x: x[0], reverse=True)` — a stable sort,
descending by score. -/
def SemanticMatcher.rank_candidates (m : SemanticMatcher)
    (resumes : List ResumeData) (jd_embedding : Emb) (jd_data : JobData)
    (embedder : String → Option Emb) : List RankedEntry :=
  (rankedPass m resumes jd_embedding jd_data embedder).mergeSort
    fun a b => decide (b.score ≤ a.score)

/-! ## Claim-side definitions -/

/-- The Jaccard similarity of two finite sets, as the spec words it. -/
def jaccard (A B : Finset String) : ℚ :=
  ((A ∩ B).card : ℚ) / ((A ∪ B).card : ℚ)

/-- Evidence of a required accounting certification, as the spec words it:
one of the required certifications is among the lower-cased resume
certifications, or occurs as a substring of the lower-cased space-joined
education text. -/
def eduEvidence (resume_data : ResumeData) : Bool :=
  ((resume_data.certifications.map pyLower).any fun c => required_certs.contains c)
  || (required_certs.any fun t =>
        pyContains (pyLower (pyJoin " " resume_data.education)) t)

/-- A resume holding a CPA certification. -/
def certsResume : ResumeData :=
  { domain := some "accounting", skills := [], certifications := ["CPA"],
    education := [], years_of_experience := 0, content := "" }

/-- A resume whose education text mentions ACCA. -/
def eduTextResume : ResumeData :=
  { domain := some "accounting", skills := [], certifications := [],
    education := ["Bachelors", "ACCA finalist"], years_of_experience := 0,
    content := "" }

/-- A resume with no certification evidence at all. -/
def bareResume : ResumeData :=
  { domain := some "accounting", skills := [], certifications := [],
    education := [], years_of_experience := 0, content := "" }

/-- An accounting job with strict requirements. -/
def strictAccountingJob : JobData :=
  { domain := some "accounting", required_skills := [],
    strict_requirements := true, min_experience := 0 }

/-- An accounting job without strict requirements. -/
def laxAccountingJob : JobData :=
  { domain := some "accounting", required_skills := [],
    strict_requirements := false, min_experience := 0 }

/-- The resume of the end-to-end scenario of the spec (§8):
domain ai_ml, skills python and tensorflow, 3 years of experience. -/
def scenarioResume : ResumeData :=
  { domain := some "ai_ml", skills := ["python", "tensorflow"],
    certifications := [], education := [], years_of_experience := 3,
    content := "" }

/-- The job of the end-to-end scenario of the spec (§8): domain ai_ml,
required skills python and pytorch, min_experience 2, no strict
requirements. -/
def scenarioJob : JobData :=
  { domain := some "ai_ml", required_skills := ["python", "pytorch"],
    strict_requirements := false, min_experience := 2 }

/-- A resume whose domain string belongs to no family of the
incompatibility table. -/
def cexResume : ResumeData :=
  { domain := some "healthcare", skills := [], certifications := [],
    education := [], years_of_experience := 0, content := "" }

/-- A job record whose dictionary lacks the domain key. -/
def cexJob : JobData :=
  { domain := none, required_skills := [], strict_requirements := false,
    min_experience := 0 }

/-- A resume in the accounting domain with no other data. -/
def accountingResume : ResumeData :=
  { domain := some "accounting", skills := [], certifications := [],
    education := [], years_of_experience := 0, content := "" }

/-- A job in the ai_ml domain with no other data. -/
def aimlJob : JobData :=
  { domain := some "ai_ml", required_skills := [],
    strict_requirements := false, min_experience := 0 }

/-! ## Helper lemmas -/

/-- The skills sub-score in closed form: 0 on an empty requirement list,
else the Jaccard similarity of the lower-cased sets (the inner
division-guard of the code never fires because a non-empty requirement
list makes the union non-empty). -/
lemma skills_match_eq (R J : List String) :
    calculate_skills_match R J =
      if J = [] then 0 else jaccard (lowerSet R) (lowerSet J) := by
  unfold calculate_skills_match jaccard
  by_cases hJ : J = []
  · simp [hJ]
  · have hne : (lowerSet J).Nonempty := by
      rw [lowerSet, List.toFinset_nonempty_iff]
      simpa using hJ
    have hpos : 0 < (lowerSet R ∪ lowerSet J).card :=
      Finset.card_pos.mpr (hne.mono Finset.subset_union_right)
    simp [hJ, hpos]

/-- The skills sub-score is never negative. -/
lemma skills_match_nonneg (R J : List String) :
    0 ≤ calculate_skills_match R J := by
  rw [skills_match_eq]
  split
  · exact le_refl 0
  · exact div_nonneg (by positivity) (by positivity)

/-- The education sub-score is never negative. -/
lemma education_nonneg (rd : ResumeData) (jd : JobData) :
    0 ≤ check_education rd jd := by
  unfold check_education
  dsimp only
  split_ifs <;> norm_num

/-- The experience sub-score is never negative. -/
lemma experience_nonneg (rd : ResumeData) (jd : JobData) :
    0 ≤ check_experience rd jd := by
  unfold check_experience
  split_ifs <;> positivity

/-! ## Claims -/

/-- C2: the domain-compatibility gate agrees everywhere with the spec
description of it: true on exactly equal domains; otherwise a prefix
lookup in the static table, the job domain checked first and the resume
domain as fallback, compatible iff the other domain starts with no
excluded family; false when neither domain starts with any table key
(fail-closed). -/
theorem domain_gate_matches_spec (r j : String) :
    check_domain_compatibility r j = specDomainCompatible r j := by
  unfold check_domain_compatibility specDomainCompatible
  by_cases hrj : r = j
  · simp [hrj]
  · simp only [if_neg hrj]
    simp only [incompatible_domains, compatLoop, List.find?, List.any]
    cases h1 : pyStartsWith j "accounting" <;>
    cases h2 : pyStartsWith r "accounting" <;>
    cases h3 : pyStartsWith j "ai_ml" <;>
    cases h4 : pyStartsWith r "ai_ml" <;>
    cases h5 : pyStartsWith j "engineering" <;>
    cases h6 : pyStartsWith r "engineering" <;>
    cases h7 : pyStartsWith j "general" <;>
    cases h8 : pyStartsWith r "general" <;>
    simp_all

/-- C5: the skills sub-score is 0 whenever the required-skill list of the job
is empty (whatever the resume skills are), and otherwise equals the
Jaccard similarity of the two lower-cased skill sets. -/
theorem skills_subscore_spec (R J : List String) :
    calculate_skills_match R J =
      if J = [] then 0 else jaccard (lowerSet R) (lowerSet J) :=
  skills_match_eq R J

/-- C6: the skills sub-score is symmetric in its two arguments,
including when either list is empty. -/
theorem skills_subscore_symm (R J : List String) :
    calculate_skills_match R J = calculate_skills_match J R := by
  rw [skills_match_eq, skills_match_eq]
  by_cases hJ : J = [] <;> by_cases hR : R = []
  · simp [hJ, hR]
  · simp [hJ, hR, jaccard, lowerSet]
  · simp [hJ, hR, jaccard, lowerSet]
  · simp only [if_neg hJ, if_neg hR]
    unfold jaccard
    rw [Finset.inter_comm, Finset.union_comm]

/-- C4: the experience sub-score case by case: 0 on an incompatible
domain pair regardless of years; 1 when min_experience is 0; 1 when the
resume meets the minimum; the partial credit (1/2)·(years/min) when it
does not, which is then always strictly below 1. -/
theorem experience_subscore_cases (rd : ResumeData) (jd : JobData) :
    (check_domain_compatibility (rd.domain.getD "") (jd.domain.getD "") = false →
       check_experience rd jd = 0)
  ∧ (check_domain_compatibility (rd.domain.getD "") (jd.domain.getD "") = true →
       jd.min_experience = 0 → check_experience rd jd = 1)
  ∧ (check_domain_compatibility (rd.domain.getD "") (jd.domain.getD "") = true →
       jd.min_experience ≠ 0 → jd.min_experience ≤ rd.years_of_experience →
       check_experience rd jd = 1)
  ∧ (check_domain_compatibility (rd.domain.getD "") (jd.domain.getD "") = true →
       rd.years_of_experience < jd.min_experience →
       check_experience rd jd =
           1/2 * ((rd.years_of_experience : ℚ) / (jd.min_experience : ℚ))
         ∧ check_experience rd jd < 1) := by
  refine ⟨fun h => ?_, fun h h0 => ?_, fun h h0 hge => ?_, fun h hlt => ?_⟩
  · simp [check_experience, h]
  · simp [check_experience, h, h0]
  · simp [check_experience, h, h0, hge]
  · have h0 : jd.min_experience ≠ 0 := Nat.pos_iff_ne_zero.mp (Nat.lt_of_le_of_lt (Nat.zero_le _) hlt)
    have hnge : ¬ jd.min_experience ≤ rd.years_of_experience := Nat.not_le.mpr hlt
    have heq : check_experience rd jd =
        1/2 * ((rd.years_of_experience : ℚ) / (jd.min_experience : ℚ)) := by
      simp [check_experience, h, h0, hnge]
    refine ⟨heq, ?_⟩
    rw [heq]
    have hmpos : 0 < (jd.min_experience : ℚ) := by
      exact_mod_cast Nat.pos_of_ne_zero h0
    have hratio : (rd.years_of_experience : ℚ) / (jd.min_experience : ℚ) < 1 := by
      rw [div_lt_one hmpos]
      exact_mod_cast hlt
    have hratio0 : 0 ≤ (rd.years_of_experience : ℚ) / (jd.min_experience : ℚ) := by
      positivity
    linarith

/-- C4 witness: with compatible ai_ml domains, min_experience 5 and
2 years of experience the sub-score is 1/5 and strictly below 1; with
5 years it is 1; with min_experience 0 it is 1. -/
theorem experience_subscore_cases_witness :
    (check_experience
        { domain := some "ai_ml", skills := [], certifications := [],
          education := [], years_of_experience := 2, content := "" }
        { domain := some "ai_ml", required_skills := [],
          strict_requirements := false, min_experience := 5 } = 1/2 * ((2 : ℚ) / (5 : ℚ))
      ∧ check_experience
        { domain := some "ai_ml", skills := [], certifications := [],
          education := [], years_of_experience := 2, content := "" }
        { domain := some "ai_ml", required_skills := [],
          strict_requirements := false, min_experience := 5 } < 1)
  ∧ check_experience
      { domain := some "ai_ml", skills := [], certifications := [],
        education := [], years_of_experience := 5, content := "" }
      { domain := some "ai_ml", required_skills := [],
        strict_requirements := false, min_experience := 5 } = 1
  ∧ check_experience
      { domain := some "ai_ml", skills := [], certifications := [],
        education := [], years_of_experience := 0, content := "" }
      { domain := some "ai_ml", required_skills := [],
        strict_requirements := false, min_experience := 0 } = 1 := by
  refine ⟨?_, ?_, ?_⟩
  · have h := (experience_subscore_cases
      { domain := some "ai_ml", skills := [], certifications := [],
        education := [], years_of_experience := 2, content := "" }
      { domain := some "ai_ml", required_skills := [],
        strict_requirements := false, min_experience := 5 }).2.2.2
      (by decide) (by decide)
    exact ⟨by simpa using h.1, h.2⟩
  · exact (experience_subscore_cases _ _).2.2.1 (by decide) (by decide) (by decide)
  · exact (experience_subscore_cases _ _).2.1 (by decide) (by decide)

/-- C7: the education sub-score is 1 whenever the job does not set
strict_requirements; with strict_requirements set and job domain exactly
accounting it is 1 on certification evidence and 0 otherwise — hence it
is 1 iff the evidence is present; for every other domain it is 1. -/
theorem education_subscore_cases (rd : ResumeData) (jd : JobData) :
    check_education rd jd =
      (if jd.strict_requirements = false then 1
       else if jd.domain.getD "" = "accounting" then
         (if eduEvidence rd then 1 else 0)
       else 1)
  ∧ (jd.strict_requirements = true → jd.domain.getD "" = "accounting" →
      (check_education rd jd = 1 ↔ eduEvidence rd = true)) := by
  have hmain : check_education rd jd =
      (if jd.strict_requirements = false then 1
       else if jd.domain.getD "" = "accounting" then
         (if eduEvidence rd then 1 else 0)
       else 1) := by
    unfold check_education eduEvidence
    cases hs : jd.strict_requirements
    · simp
    · by_cases hd : jd.domain.getD "" = "accounting"
      · cases h1 : ((rd.certifications.map pyLower).any fun c =>
            required_certs.contains c) <;>
        cases h2 : (required_certs.any fun t =>
            pyContains (pyLower (pyJoin " " rd.education)) t) <;>
        simp only [h1, h2, hd] <;> simp
      · simp [hd]
  refine ⟨hmain, fun hs hd => ?_⟩
  rw [hmain, if_neg (by simp [hs]), if_pos hd]
  by_cases he : eduEvidence rd = true
  · simp [he]
  · simp only [Bool.not_eq_true] at he
    simp [he]

/-- C7 witness: with strict requirements and accounting domain, a resume
whose certifications include CPA scores 1, a resume whose education text
contains acca scores 1, and a bare resume scores 0; without strict
requirements the bare resume scores 1. -/
theorem education_subscore_cases_witness :
    check_education certsResume strictAccountingJob = 1
  ∧ check_education eduTextResume strictAccountingJob = 1
  ∧ check_education bareResume strictAccountingJob ≠ 1
  ∧ check_education bareResume laxAccountingJob = 1 := by
  refine ⟨?_, ?_, ?_, ?_⟩
  · exact ((education_subscore_cases certsResume strictAccountingJob).2
      rfl rfl).mpr (by decide)
  · exact ((education_subscore_cases eduTextResume strictAccountingJob).2
      rfl rfl).mpr (by decide)
  · intro hcon
    exact absurd (((education_subscore_cases bareResume strictAccountingJob).2
      rfl rfl).mp hcon) (by decide)
  · rw [(education_subscore_cases bareResume laxAccountingJob).1]
    simp [laxAccountingJob]

/-- C1: with the default weights, match returns on an incompatible
domain pair the zero score with all detail sub-scores zero except
base_score, which reports the raw cosine similarity; on a compatible
pair the weighted sum 0.6·1 + 0.25·skills + 0.05·education +
0.1·experience clamped to the unit interval; and on the
end-to-end scenario the score 0.6·1 + 0.25·(1/3) + 0.1·1 + 0.05·1. -/
theorem match_weighted_scoring (cos : Emb → Emb → ℚ) (re je : Emb)
    (rd : ResumeData) (jd : JobData) :
    (check_domain_compatibility (rd.domain.getD "general")
        (jd.domain.getD "general") = false →
       (SemanticMatcher.mk defaultWeights cos).matchPair re je rd jd =
         { score := 0,
           details := { base_score := cos re je, domain_match := 0,
                        skills_match := 0, education_match := 0,
                        experience_match := 0 } })
  ∧ (check_domain_compatibility (rd.domain.getD "general")
        (jd.domain.getD "general") = true →
       (SemanticMatcher.mk defaultWeights cos).matchPair re je rd jd =
         { score := min 1 (max 0 (
             6/10 * 1
             + 25/100 * calculate_skills_match rd.skills jd.required_skills
             + 5/100 * check_education rd jd
             + 1/10 * check_experience rd jd)),
           details := { base_score := cos re je, domain_match := 1,
                        skills_match :=
                          calculate_skills_match rd.skills jd.required_skills,
                        education_match := check_education rd jd,
                        experience_match := check_experience rd jd } })
  ∧ ((SemanticMatcher.mk defaultWeights cos).matchPair re je
        scenarioResume scenarioJob).score
      = 6/10 * 1 + 25/100 * (1/3) + 1/10 * 1 + 5/100 * 1 := by
  have hbranch : ∀ (rd' : ResumeData) (jd' : JobData),
      check_domain_compatibility (rd'.domain.getD "general")
        (jd'.domain.getD "general") = true →
      (SemanticMatcher.mk defaultWeights cos).matchPair re je rd' jd' =
        { score := min 1 (max 0 (
            6/10 * 1
            + 25/100 * calculate_skills_match rd'.skills jd'.required_skills
            + 5/100 * check_education rd' jd'
            + 1/10 * check_experience rd' jd')),
          details := { base_score := cos re je, domain_match := 1,
                       skills_match :=
                         calculate_skills_match rd'.skills jd'.required_skills,
                       education_match := check_education rd' jd',
                       experience_match := check_experience rd' jd' } } := by
    intro rd' jd' h
    simp only [SemanticMatcher.matchPair, h, Bool.not_true, Bool.false_eq_true,
      if_false, if_true, defaultWeights]
    congr 2
    ring_nf
  refine ⟨fun h => ?_, hbranch rd jd, ?_⟩
  · simp [SemanticMatcher.matchPair, h]
  · have hgate : check_domain_compatibility (scenarioResume.domain.getD "general")
        (scenarioJob.domain.getD "general") = true := by decide
    rw [hbranch scenarioResume scenarioJob hgate]
    have hsm : calculate_skills_match scenarioResume.skills
        scenarioJob.required_skills = 1/3 := by
      rw [skills_match_eq]
      have h1 : (lowerSet scenarioResume.skills ∩
          lowerSet scenarioJob.required_skills).card = 1 := by decide
      have h2 : (lowerSet scenarioResume.skills ∪
          lowerSet scenarioJob.required_skills).card = 3 := by decide
      rw [if_neg (by decide), jaccard, h1, h2]
      norm_num
    have hem : check_education scenarioResume scenarioJob = 1 := by decide
    have hxm : check_experience scenarioResume scenarioJob = 1 := by decide
    rw [hsm, hem, hxm]
    rw [max_eq_right (by norm_num), min_eq_right (by norm_num)]
    norm_num

/-- C1 witness: at a concrete incompatible pair (accounting resume,
ai_ml job) the result is the zero record carrying the raw cosine
similarity 37/100 as base_score; on the scenario pair the score equals
the weighted sum of the spec. -/
theorem match_weighted_scoring_witness :
    ((SemanticMatcher.mk defaultWeights fun _ _ => 37/100).matchPair [] []
        accountingResume aimlJob) =
      { score := 0,
        details := { base_score := 37/100, domain_match := 0,
                     skills_match := 0, education_match := 0,
                     experience_match := 0 } }
  ∧ ((SemanticMatcher.mk defaultWeights fun _ _ => 0).matchPair [] []
        scenarioResume scenarioJob).score
      = 6/10 * 1 + 25/100 * (1/3) + 1/10 * 1 + 5/100 * 1 :=
  ⟨(match_weighted_scoring (fun _ _ => 37/100) [] [] accountingResume
      aimlJob).1 (by decide),
   (match_weighted_scoring (fun _ _ => 0) [] [] accountingResume aimlJob).2.2⟩

/-- C10: with the default weights, any compatible pair scores at least
6/10, the domain weight, whatever the other sub-scores are. -/
theorem compatible_score_floor (cos : Emb → Emb → ℚ) (re je : Emb)
    (rd : ResumeData) (jd : JobData)
    (h : check_domain_compatibility (rd.domain.getD "general")
      (jd.domain.getD "general") = true) :
    6/10 ≤ ((SemanticMatcher.mk defaultWeights cos).matchPair re je rd jd).score := by
  have hsm := skills_match_nonneg rd.skills jd.required_skills
  have hem := education_nonneg rd jd
  have hxm := experience_nonneg rd jd
  simp only [SemanticMatcher.matchPair, h, Bool.not_true, Bool.false_eq_true,
    if_false, if_true, defaultWeights]
  refine le_min (by norm_num) (le_trans ?_ (le_max_right 0 _))
  linarith

/-- C10 witness: the scenario pair is compatible and its score is at
least 6/10. -/
theorem compatible_score_floor_witness :
    check_domain_compatibility (scenarioResume.domain.getD "general")
        (scenarioJob.domain.getD "general") = true
  ∧ 6/10 ≤ ((SemanticMatcher.mk defaultWeights fun _ _ => 0).matchPair [] []
        scenarioResume scenarioJob).score :=
  ⟨by decide,
   compatible_score_floor (fun _ _ => 0) [] [] scenarioResume scenarioJob
     (by decide)⟩

/-- C3 counterexample: for a resume in an unrecognized domain paired
with a job record lacking the domain key, the gate evaluation done in
match (missing key defaulted to "general") returns true while the gate
evaluation done in the experience sub-score (missing key defaulted to
"") returns false, and the pipeline exhibits the divergence:
details.domain_match is 1 while the experience sub-score is forced
to 0. -/
theorem gate_reeval_differs_cex :
    check_domain_compatibility (cexResume.domain.getD "general")
        (cexJob.domain.getD "general") = true
  ∧ check_domain_compatibility (cexResume.domain.getD "")
        (cexJob.domain.getD "") = false
  ∧ ((SemanticMatcher.mk defaultWeights fun _ _ => 0).matchPair [] []
        cexResume cexJob).details.domain_match = 1
  ∧ check_experience cexResume cexJob = 0 := by
  refine ⟨by decide, by decide, ?_, by decide⟩
  simp [SemanticMatcher.matchPair, show check_domain_compatibility
    (cexResume.domain.getD "general") (cexJob.domain.getD "general") = true
    from by decide]

/-- C3 amended: the two gate evaluations of one pipeline run agree
whenever both records actually carry a domain key; the gate itself is a
pure function of the two domain strings, and only the two different
missing-key defaults ("general" in match, "" in the experience check)
can make the evaluations differ. -/
theorem gate_consistent_when_domains_present (rd : ResumeData)
    (jd : JobData) (a b : String) (hr : rd.domain = some a)
    (hj : jd.domain = some b) :
    check_domain_compatibility (rd.domain.getD "general")
        (jd.domain.getD "general")
      = check_domain_compatibility (rd.domain.getD "")
        (jd.domain.getD "") := by
  rw [hr, hj]
  rfl

/-- C3 amended-claim witness: on the scenario pair, whose records both
carry a domain key, the two gate evaluations coincide. -/
theorem gate_consistent_when_domains_present_witness :
    check_domain_compatibility (scenarioResume.domain.getD "general")
        (scenarioJob.domain.getD "general")
      = check_domain_compatibility (scenarioResume.domain.getD "")
        (scenarioJob.domain.getD "") :=
  gate_consistent_when_domains_present scenarioResume scenarioJob
    "ai_ml" "ai_ml" rfl rfl

/-! ## Ranker lemmas -/

/-- The descending comparison used by the ranker is transitive. -/
lemma entry_le_trans (a b c : RankedEntry) :
    decide (b.score ≤ a.score) = true → decide (c.score ≤ b.score) = true →
    decide (c.score ≤ a.score) = true := by
  simp only [decide_eq_true_eq]
  exact fun h1 h2 => le_trans h2 h1

/-- The descending comparison used by the ranker is total. -/
lemma entry_le_total (a b : RankedEntry) :
    (decide (b.score ≤ a.score) || decide (a.score ≤ b.score)) = true := by
  simpa only [Bool.or_eq_true, decide_eq_true_eq] using le_total b.score a.score

/-- Restricting the input to the non-failing resumes does not change the
accumulated entry list. -/
lemma rankedPass_filter_isSome (m : SemanticMatcher) (resumes : List ResumeData)
    (je : Emb) (jd : JobData) (embedder : String → Option Emb) :
    rankedPass m (resumes.filter fun r => (embedder r.content).isSome)
        je jd embedder
      = rankedPass m resumes je jd embedder := by
  induction resumes with
  | nil => rfl
  | cons r rest ih =>
    simp only [rankedPass, List.filter_cons, List.filterMap_cons] at ih ⊢
    cases h : embedder r.content with
    | none => simp [h, ih]
    | some emb => simp [h, ih]

/-- The accumulated entry list has one entry per non-failing resume. -/
lemma rankedPass_length (m : SemanticMatcher) (resumes : List ResumeData)
    (je : Emb) (jd : JobData) (embedder : String → Option Emb) :
    (rankedPass m resumes je jd embedder).length
      = (resumes.filter fun r => (embedder r.content).isSome).length := by
  induction resumes with
  | nil => rfl
  | cons r rest ih =>
    simp only [rankedPass, List.filter_cons, List.filterMap_cons] at ih ⊢
    cases h : embedder r.content with
    | none => simp [h, ih]
    | some emb => simp [h, ih]

/-- The accumulated entry list keeps the resumes in input order. -/
lemma rankedPass_resume_sublist (m : SemanticMatcher)
    (resumes : List ResumeData) (je : Emb) (jd : JobData)
    (embedder : String → Option Emb) :
    ((rankedPass m resumes je jd embedder).map fun e => e.resume).Sublist
      resumes := by
  induction resumes with
  | nil => simp [rankedPass]
  | cons r rest ih =>
    simp only [rankedPass, List.filterMap_cons] at ih ⊢
    cases h : embedder r.content with
    | none =>
      simp only [h, Option.map_none']
      exact List.Sublist.cons r ih
    | some emb =>
      simp only [h, Option.map_some', List.map_cons]
      exact List.Sublist.cons₂ r ih

/-- C8: the ranker output is sorted descending by score, and it is
stable: the entries carrying any fixed score appear in the same order as
in the accumulation pass, which itself keeps resumes in input order. -/
theorem ranker_sorted_and_stable (m : SemanticMatcher)
    (resumes : List ResumeData) (je : Emb) (jd : JobData)
    (embedder : String → Option Emb) :
    List.Pairwise (fun a b : RankedEntry => b.score ≤ a.score)
      (m.rank_candidates resumes je jd embedder)
  ∧ (∀ q : ℚ,
      (m.rank_candidates resumes je jd embedder).filter
          (fun e => decide (e.score = q))
        = (rankedPass m resumes je jd embedder).filter
          (fun e => decide (e.score = q)))
  ∧ ((rankedPass m resumes je jd embedder).map fun e => e.resume).Sublist
      resumes := by
  refine ⟨?_, fun q => ?_, rankedPass_resume_sublist m resumes je jd embedder⟩
  · have hsorted := List.sorted_mergeSort entry_le_trans entry_le_total
      (rankedPass m resumes je jd embedder)
    exact hsorted.imp fun {a b} h => of_decide_eq_true h
  · have hpw : ((rankedPass m resumes je jd embedder).filter
        (fun e => decide (e.score = q))).Pairwise
        (fun a b => decide (b.score ≤ a.score) = true) := by
      apply List.pairwise_of_forall_mem_list
      intro a ha b hb
      have ha' : a.score = q := of_decide_eq_true (List.mem_filter.mp ha).2
      have hb' : b.score = q := of_decide_eq_true (List.mem_filter.mp hb).2
      simp [ha', hb']
    have hsub : List.Sublist
        ((rankedPass m resumes je jd embedder).filter
          (fun e => decide (e.score = q)))
        ((rankedPass m resumes je jd embedder).mergeSort
          (fun a b => decide (b.score ≤ a.score))) :=
      List.sublist_mergeSort entry_le_trans entry_le_total hpw
        (List.filter_sublist _)
    have hself : ((rankedPass m resumes je jd embedder).filter
          (fun e => decide (e.score = q))).filter
          (fun e => decide (e.score = q))
        = (rankedPass m resumes je jd embedder).filter
          (fun e => decide (e.score = q)) :=
      List.filter_eq_self.mpr fun a ha => (List.mem_filter.mp ha).2
    have hsub2 : List.Sublist
        ((rankedPass m resumes je jd embedder).filter
          (fun e => decide (e.score = q)))
        (((rankedPass m resumes je jd embedder).mergeSort
          (fun a b => decide (b.score ≤ a.score))).filter
          (fun e => decide (e.score = q))) := by
      have := hsub.filter (fun e => decide (e.score = q))
      rwa [hself] at this
    have hperm : List.Perm
        (((rankedPass m resumes je jd embedder).mergeSort
          (fun a b => decide (b.score ≤ a.score))).filter
          (fun e => decide (e.score = q)))
        ((rankedPass m resumes je jd embedder).filter
          (fun e => decide (e.score = q))) :=
      (List.mergeSort_perm (rankedPass m resumes je jd embedder)
        (fun a b => decide (b.score ≤ a.score))).filter
        (fun e => decide (e.score = q))
    exact (hsub2.eq_of_length hperm.length_eq.symm).symm

/-- C9: a resume whose embedding computation fails is skipped and the
others are unaffected: the ranking of the full input equals the ranking
of the input restricted to the non-failing resumes, and the output has
exactly one entry per non-failing resume. -/
theorem ranker_skips_failing_resumes (m : SemanticMatcher)
    (resumes : List ResumeData) (je : Emb) (jd : JobData)
    (embedder : String → Option Emb) :
    m.rank_candidates resumes je jd embedder
      = m.rank_candidates (resumes.filter fun r => (embedder r.content).isSome)
          je jd embedder
  ∧ (m.rank_candidates resumes je jd embedder).length
      = (resumes.filter fun r => (embedder r.content).isSome).length := by
  constructor
  · unfold SemanticMatcher.rank_candidates
    rw [rankedPass_filter_isSome]
  · unfold SemanticMatcher.rank_candidates
    rw [List.length_mergeSort]
    exact rankedPass_length m resumes je jd embedder

end CVMatch
